import Mathlib

/-!
Verification of the record reconstruction and consistency-validation engine of
the SuperDARN-Uptime repository (`rawacf_utils.py`, Python 2).

The shallow embedding below translates, from the source:
  * the per-epoch dmap dictionaries (`Epoch`; dict keys such as 'origin.command'
    and 'time.us' become fields `origin_command`, `time_us`),
  * `check_fields` (lines 418-453) with its objection dictionary
    (`Objections`; the dict's values are human-readable log strings that no
    caller inspects, so the model keeps only key presence, one Bool per
    possible key),
  * `reconstruct_datetime` (lines 398-416), including its in-place overwrite
    of the 'time.us' entry of its argument dictionary, which is modelled by
    returning the updated epoch alongside the result,
  * `RawacfRecord.record_from_dics` (lines 190-255), including the control
    flow of its `try`/`except ValueError` block: a ValueError from the first
    or last epoch leaves the local `ts` unassigned so that line 246 raises a
    NameError, while a ValueError from a middle epoch leaves a truncated `ts`
    and the function still returns a record,
  * `RawacfRecord.save_to_db` (lines 138-159; the serialized 12-tuple) and
    `RawacfRecord.record_from_tuple` (lines 162-187) with `iso_to_dt`
    (lines 511-532) and `datetime.isoformat`.

Python 2 conventions reflected in the model: `/` on ints is floor division
(`Int.fdiv`); `bool` is a subtype of `int` with `True == 1` and `False == 0`,
so the record fields `times_consistent` and `not_corrupt` (which the code
stores interchangeably as Python bools and as `int(...)` 0/1) are modelled as
`Int` with values 0 and 1; `timedelta.total_seconds()` returns the exact
integer microsecond difference divided by 10^6 as a correctly-rounded float,
and comparing that float against the integer threshold 20 is exactly
equivalent to comparing the microsecond difference against 20000000 (the
rational value of the quotient is at least 10^-6 away from 20 whenever it is
not exactly representable, far more than the rounding error), so time
differences are modelled as exact microsecond integers.
-/

/-- The value stored under the 'time.us' key of a dmap dictionary.  The code
only distinguishes ints from everything else (`type(dic['time.us']) != int`),
so non-int values are collapsed into one constructor. -/
inductive UsVal where
  | intVal (n : Int)
  | nonIntVal
deriving DecidableEq, Repr

/-- One dmap dictionary (one integration period) with the keys read by
`check_fields` and `record_from_dics`: 'cp', 'origin.command', 'stid', 'xcf',
'txpl', 'rsep', 'bmnum', 'tfreq', 'nave', 'time.yr', 'time.mo', 'time.dy',
'time.hr', 'time.mt', 'time.sc', 'time.us'. -/
structure Epoch where
  cp : Int
  origin_command : String
  stid : Int
  xcf : Int
  txpl : Int
  rsep : Int
  bmnum : Int
  tfreq : Int
  nave : Int
  time_yr : Int
  time_mo : Int
  time_dy : Int
  time_hr : Int
  time_mt : Int
  time_sc : Int
  time_us : UsVal
deriving DecidableEq, Repr

/-- Key presence in `check_fields`' `objection_dict`.  The dict's values are
debug strings that are only logged, so the model records, for each key the
source can insert, whether it is present. -/
structure Objections where
  cp : Bool
  origin_command : Bool
  stid : Bool
  xcf : Bool
  rsep : Bool
  txpl : Bool
  bmnum : Bool
deriving DecidableEq, Repr

/-- The freshly created `objection_dict = dict()` of line 429. -/
def Objections.empty : Objections :=
  ⟨false, false, false, false, false, false, false⟩

/-- `objection_dict` is empty (no key was ever inserted). -/
def objEmpty (o : Objections) : Bool :=
  !o.cp && !o.origin_command && !o.stid && !o.xcf && !o.rsep && !o.txpl && !o.bmnum

/-- `radars16.values()` from lines 32-36: station ids of the legacy 16-beam
radars. -/
def radars16_values : List Int :=
  [66, 1, 10, 40, 41, 64, 3, 16, 7, 90, 9, 6, 65, 5, 2, 8, 96, 21, 4, 15,
   20, 11, 22, 13, 12, 14, 18, 19]

/-- Line 435: the current epoch's value of one of the four checked fields
differs from the first epoch's value ('cp' instance). -/
def cpViol (first d : Epoch) : Bool := d.cp != first.cp

/-- Line 435 for 'origin.command'. -/
def cmdViol (first d : Epoch) : Bool := d.origin_command != first.origin_command

/-- Line 435 for 'stid'. -/
def stidViol (first d : Epoch) : Bool := d.stid != first.stid

/-- Line 435 for 'xcf'. -/
def xcfViol (first d : Epoch) : Bool := d.xcf != first.xcf

/-- Line 444: `(txpl*3/20) != rsep`; Python 2 `/` on ints is floor
division. -/
def rsepViol (d : Epoch) : Bool := (d.txpl * 3).fdiv 20 != d.rsep

/-- Lines 449-450: `range_max = 16 if stid in radars16.values() else 24`
and `bmnum not in range(range_max)`. -/
def bmnumViol (d : Epoch) : Bool :=
  !(decide (0 ≤ d.bmnum ∧ d.bmnum < (if d.stid ∈ radars16_values then (16 : Int) else 24)))

/-- One iteration of the loop body of `check_fields` (lines 430-452): keys
already present stay present; a key is inserted when its check fails for the
current epoch. -/
def check_step (first : Epoch) (obj : Objections) (d : Epoch) : Objections :=
  { cp := obj.cp || cpViol first d
    origin_command := obj.origin_command || cmdViol first d
    stid := obj.stid || stidViol first d
    xcf := obj.xcf || xcfViol first d
    rsep := obj.rsep || rsepViol d
    txpl := obj.txpl || rsepViol d
    bmnum := obj.bmnum || bmnumViol d }

/-- `check_fields` (lines 418-453): fold the loop body over all epochs,
comparing the four constant fields against `dmap_dicts[0]`. -/
def check_fields (dmap_dicts : List Epoch) : Objections :=
  match dmap_dicts with
  | [] => Objections.empty
  | first :: _ => dmap_dicts.foldl (check_step first) Objections.empty

/-- A Python `datetime.datetime` value: the seven components the code uses. -/
structure DateTime where
  year : Int
  month : Int
  day : Int
  hour : Int
  minute : Int
  second : Int
  microsecond : Int
deriving DecidableEq, Repr

/-- Python's leap-year rule. -/
def isLeapYear (y : Int) : Bool := (y % 4 == 0 && y % 100 != 0) || y % 400 == 0

/-- Days in a month of a given year, as validated by the `datetime`
constructor. -/
def daysInMonth (y m : Int) : Int :=
  if m = 2 then (if isLeapYear y then 29 else 28)
  else if m = 4 ∨ m = 6 ∨ m = 9 ∨ m = 11 then 30
  else 31

/-- Days in the given year before the first day of month `m`. -/
def daysBeforeMonth (y m : Int) : Int :=
  let leap : Int := if isLeapYear y then 1 else 0
  if m = 1 then 0 else if m = 2 then 31 else if m = 3 then 59 + leap
  else if m = 4 then 90 + leap else if m = 5 then 120 + leap
  else if m = 6 then 151 + leap else if m = 7 then 181 + leap
  else if m = 8 then 212 + leap else if m = 9 then 243 + leap
  else if m = 10 then 273 + leap else if m = 11 then 304 + leap
  else 334 + leap

/-- Proleptic-Gregorian ordinal of a date (CPython's `_ymd2ord`):
January 1 of year 1 is day 1. -/
def toOrdinal (y m d : Int) : Int :=
  365 * (y - 1) + (y - 1).fdiv 4 - (y - 1).fdiv 100 + (y - 1).fdiv 400
    + daysBeforeMonth y m + d

/-- A datetime as a single microsecond count on the proleptic-Gregorian
timeline.  Differences of these values are exactly the microsecond
differences Python's datetime subtraction computes, and Python's datetime
comparison orders datetimes by this value. -/
def toMicros (t : DateTime) : Int :=
  ((((toOrdinal t.year t.month t.day * 24 + t.hour) * 60 + t.minute) * 60
      + t.second) * 1000000) + t.microsecond

/-- The validation performed by the `datetime.datetime` constructor
(MINYEAR = 1, MAXYEAR = 9999). -/
def dtValidB (y mo dy hr mt sc us : Int) : Bool :=
  1 ≤ y && y ≤ 9999 && 1 ≤ mo && mo ≤ 12 && 1 ≤ dy && dy ≤ daysInMonth y mo
    && 0 ≤ hr && hr ≤ 23 && 0 ≤ mt && mt ≤ 59 && 0 ≤ sc && sc ≤ 59
    && 0 ≤ us && us ≤ 999999

/-- Component validity of a `DateTime` value (always true of a value the
`datetime` constructor accepted). -/
def dtValid (t : DateTime) : Bool :=
  dtValidB t.year t.month t.day t.hour t.minute t.second t.microsecond

/-- The `datetime.datetime(...)` constructor call of lines 414-415: a
ValueError (modelled as `Except.error ()`) when some component is out of
range. -/
def mk_datetime (y mo dy hr mt sc us : Int) : Except Unit DateTime :=
  if dtValidB y mo dy hr mt sc us then Except.ok ⟨y, mo, dy, hr, mt, sc, us⟩
  else Except.error ()

/-- Line 409's condition: `dic['time.us'] < 0 or dic['time.us'] > 999999 or
type(dic['time.us']) != int`.  (For a non-int value the first two float/misc
comparisons are false or irrelevant and the type test fires, so the
disjunction is true exactly when the value is a non-int or an out-of-range
int.) -/
def usBad : UsVal → Bool
  | .intVal n => decide (n < 0) || decide (n > 999999)
  | .nonIntVal => true

/-- The int content of a 'time.us' entry (only read after correction, when
it is an in-range int). -/
def usInt : UsVal → Int
  | .intVal n => n
  | .nonIntVal => 0

/-- Line 413: `dic['time.us'] = 1` — the in-place correction of the input
dictionary when line 409's condition holds. -/
def micro_correct (e : Epoch) : Epoch :=
  if usBad e.time_us then { e with time_us := .intVal 1 } else e

/-- `reconstruct_datetime` (lines 398-416).  Returns the argument dictionary
as it is after the call (the microsecond correction mutates it) together
with the constructed datetime or the constructor's ValueError. -/
def reconstruct_datetime (dic : Epoch) : Epoch × Except Unit DateTime :=
  let d := micro_correct dic
  (d, mk_datetime d.time_yr d.time_mo d.time_dy d.time_hr d.time_mt d.time_sc
        (usInt d.time_us))

/-- The value `reconstruct_datetime` produces for an epoch (ignoring the
state it leaves behind). -/
def dtOf (e : Epoch) : Except Unit DateTime := (reconstruct_datetime e).2

/-- Whether `reconstruct_datetime` succeeds on an epoch. -/
def dtOkB (e : Epoch) : Bool :=
  match dtOf e with
  | .ok _ => true
  | .error _ => false

/-- The ways `record_from_dics` can terminate without a record:
  * `indexError`: `dmap_dicts[0]` in the line 202 assert indexes an empty
    list;
  * `badRawacf`: the explicit `raise BadRawacfError` of line 206;
  * `nameError`: line 246 reads the local `ts` that the aborted `try` block
    (lines 234-241) never assigned. -/
inductive RecErr where
  | indexError
  | badRawacf
  | nameError
deriving DecidableEq, Repr

deriving instance DecidableEq for Except

/-- The fields of a `RawacfRecord` (constructor, lines 96-113).
`times_consistent` and `not_corrupt` hold Python truth values that the code
treats interchangeably as bools and 0/1 ints (`int(...)` in `save_to_db`),
modelled as the ints 0 and 1. -/
structure Record where
  stid : Int
  start_dt : DateTime
  end_dt : DateTime
  cmd_name : String
  cmd_args : String
  cpid : Int
  min_nave : Int
  times_consistent : Int
  not_corrupt : Int
  min_tfreq : Int
  max_tfreq : Int
  xcf : Int
deriving DecidableEq, Repr

/-- `cmd.split(' ', 1)` on the character list: the part before the first
space, and the part after it when a space exists. -/
def split_first_space : List Char → List Char × Option (List Char)
  | [] => ([], none)
  | c :: cs =>
    if c = ' ' then ([], some cs)
    else
      let r := split_first_space cs
      (c :: r.1, r.2)

/-- Lines 213-219: split the origin command into name and argument string.
`cmd.split(' ', 1)` has one element (no space: args are "") or two. -/
def split_cmd (cmd : String) : String × String :=
  let r := split_first_space cmd.data
  match r.2 with
  | none => (String.mk r.1, "")
  | some rest => (String.mk r.1, String.mk rest)

/-- Python's `min` over a non-empty int list (the empty case never occurs:
the callers pass lists with at least two elements). -/
def pyMin : List Int → Int
  | [] => 0
  | x :: xs => xs.foldl min x

/-- Python's `max` over a non-empty int list. -/
def pyMax : List Int → Int
  | [] => 0
  | x :: xs => xs.foldl max x

/-- `dmap_dicts[-1]`: the last element, with the previous element as
accumulator. -/
def pyLast : Epoch → List Epoch → Epoch
  | x, [] => x
  | _, e :: es => pyLast e es

/-- Replace the last element of a list (the effect on the list of mutating
the dict object at index -1). -/
def setLast (v : Epoch) : List Epoch → List Epoch
  | [] => []
  | e :: es =>
    match es with
    | [] => [v]
    | _ :: _ => e :: setLast v es

/-- One iteration of the `for d in dmap_dicts: ts.append(...)` loop of
lines 239-241, given the outcome `r` of the remaining iterations: on a
ValueError the visited dict is still microsecond-corrected first, the rest
of the list is left untouched and no timestamp is appended; on success the
timestamp is appended and the loop continues. -/
def tsLoopCons (e : Epoch) (es : List Epoch) (r : List Epoch × List DateTime × Bool) :
    List Epoch × List DateTime × Bool :=
  match dtOf e with
  | .error _ => (micro_correct e :: es, [], false)
  | .ok t => (micro_correct e :: r.1, t :: r.2.1, r.2.2)

/-- The `for d in dmap_dicts: ts.append(reconstruct_datetime(d))` loop of
lines 239-241, run inside the `try`.  Returns the list as left behind
(each visited dict microsecond-corrected), the timestamps appended before
any failure, and whether the loop completed. -/
def tsLoop : List Epoch → List Epoch × List DateTime × Bool
  | [] => ([], [], true)
  | e :: es => tsLoopCons e es (tsLoop es)

/-- Consecutive differences `(ts[i+1] - ts[i]).total_seconds()` of line 246,
in exact microseconds. -/
def microDiffs : List DateTime → List Int
  | a :: b :: rest => (toMicros b - toMicros a) :: microDiffs (b :: rest)
  | _ => []

/-- The timestamps of the epochs whose reconstruction succeeds, in order. -/
def tsOf (l : List Epoch) : List DateTime :=
  (l.map dtOf).filterMap Except.toOption

/-- The list state after lines 235-236 have run: `reconstruct_datetime` was
called on `dmap_dicts[0]` and `dmap_dicts[-1]`, correcting their 'time.us'
entries in place. -/
def stateAfterStartEnd (first next : Epoch) (rest : List Epoch) : List Epoch :=
  setLast (micro_correct (pyLast next rest)) (micro_correct first :: next :: rest)

/-- The body of `record_from_dics` (lines 208-255) for a list
`first :: next :: rest` of length at least 2.  Returns the input list as the
call leaves it together with the outcome. -/
def build_record (first next : Epoch) (rest : List Epoch) :
    List Epoch × Except RecErr Record :=
  let dicts := first :: next :: rest
  let obj := check_fields dicts
  -- lines 209-212: first epoch's value unless the field drew an objection
  let cpid := if obj.cp then -1 else first.cp
  let stid := if obj.stid then -1 else first.stid
  let cmd := if obj.origin_command then "" else first.origin_command
  let xcf := if obj.xcf then -1 else first.xcf
  -- lines 213-219
  let cmd_split := split_cmd cmd
  -- lines 220-223 and 250-251: not_corrupt is False iff objection_dict has
  -- a value to iterate over
  let not_corrupt : Int := if objEmpty obj then 1 else 0
  -- lines 226-231
  let min_tfreq := pyMin (dicts.map (fun d => d.tfreq))
  let max_tfreq := pyMax (dicts.map (fun d => d.tfreq))
  let min_nave := pyMin (dicts.map (fun d => d.nave))
  -- lines 234-248: the try/except ValueError block
  let s1 := micro_correct first :: next :: rest
  match dtOf first with
  | .error _ =>
    -- start_dt raised; `ts` is never assigned, line 246 raises NameError
    (s1, Except.error RecErr.nameError)
  | .ok start_dt =>
    let lastE := pyLast next rest
    let s2 := stateAfterStartEnd first next rest
    match dtOf lastE with
    | .error _ =>
      -- end_dt raised; `ts` is never assigned, line 246 raises NameError
      (s2, Except.error RecErr.nameError)
    | .ok end_dt =>
      let loop := tsLoop s2
      -- a ValueError inside the loop is caught and only logged: `ts` keeps
      -- the timestamps gathered so far and execution continues at line 246
      let ts := loop.2.1
      let diffs := microDiffs ts
      -- line 248: all differences strictly below 20 seconds
      let times_consistent : Int :=
        if diffs.all (fun x => decide (x < 20000000)) then 1 else 0
      (loop.1,
        Except.ok
          { stid := stid, start_dt := start_dt, end_dt := end_dt
            cmd_name := cmd_split.1, cmd_args := cmd_split.2, cpid := cpid
            min_nave := min_nave, times_consistent := times_consistent
            not_corrupt := not_corrupt, min_tfreq := min_tfreq
            max_tfreq := max_tfreq, xcf := xcf })

/-- `RawacfRecord.record_from_dics` (lines 190-255).  The empty list fails
with an IndexError raised while evaluating `dmap_dicts[0]` inside the
line 202 assert; a one-element list raises `BadRawacfError` (line 206);
otherwise the body runs.  The returned list is the input list as the call
leaves it. -/
def record_from_dics (dmap_dicts : List Epoch) : List Epoch × Except RecErr Record :=
  match dmap_dicts with
  | [] => ([], Except.error RecErr.indexError)
  | [d] => ([d], Except.error RecErr.badRawacf)
  | first :: next :: rest => build_record first next rest

/-- `record_from_dics` returned a record (did not raise). -/
def exceptIsOk : Except RecErr Record → Bool
  | .ok _ => true
  | .error _ => false

/-- A returned record satisfies `start_dt <= end_dt` (Python datetime
comparison is timeline order); errors are vacuously fine. -/
def startLeEnd : Except RecErr Record → Bool
  | .ok r => decide (toMicros r.start_dt ≤ toMicros r.end_dt)
  | .error _ => true

/-- The `k` decimal digits of `n < 10^k`, most significant first: the
zero-padded fields "%04d", "%02d", "%06d" of `datetime.isoformat`. -/
def padDigits : Nat → Nat → List Char
  | 0, _ => []
  | k + 1, n => Nat.digitChar (n / 10 ^ k) :: padDigits k (n % 10 ^ k)

/-- One step of Python's `int()` over a digit string. -/
def parseStep (a : Nat) (c : Char) : Nat := a * 10 + (c.toNat - 48)

/-- Python's `int()` on a string of decimal digits. -/
def parseNatChars (l : List Char) : Nat := l.foldl parseStep 0

/-- `int(...)` as used by `iso_to_dt` on the digit groups it splits off. -/
def pyIntOf (l : List Char) : Int := (parseNatChars l : Int)

/-- `str.split(sep)` with a one-character separator: prepend a character to
the first group. -/
def consHead (a : Char) : List (List Char) → List (List Char)
  | [] => [[a]]
  | g :: gs => (a :: g) :: gs

/-- Python's `str.split(sep)` for a one-character separator `c`. -/
def splitCh (c : Char) : List Char → List (List Char)
  | [] => [[]]
  | a :: as => if a = c then [] :: splitCh c as else consHead a (splitCh c as)

/-- The characters of `datetime.isoformat()` (default separator 'T'): the
fractional part is printed as 6 digits and omitted when the microsecond is
zero. -/
def isoChars (t : DateTime) : List Char :=
  padDigits 4 t.year.toNat ++ '-' :: padDigits 2 t.month.toNat
    ++ '-' :: padDigits 2 t.day.toNat
    ++ 'T' :: padDigits 2 t.hour.toNat ++ ':' :: padDigits 2 t.minute.toNat
    ++ ':' :: padDigits 2 t.second.toNat
    ++ (if t.microsecond = 0 then [] else '.' :: padDigits 6 t.microsecond.toNat)

/-- `datetime.isoformat()` as called in `save_to_db` (lines 145-146). -/
def isoformat (t : DateTime) : String := String.mk (isoChars t)

/-- `iso_to_dt` (lines 511-532): split on 'T', the date on '-', the time on
':', the seconds on '.'; a missing fractional part means zero microseconds.
The tuple-unpacking ValueErrors of the source (wrong number of groups)
are the `none` results. -/
def iso_to_dt (iso : String) : Option DateTime :=
  match splitCh 'T' iso.data with
  | [dpart, tpart] =>
    match splitCh '-' dpart with
    | [yc, moc, dyc] =>
      match splitCh ':' tpart with
      | [hc, mtc, scc] =>
        match splitCh '.' scc with
        | [sc1] =>
          some ⟨pyIntOf yc, pyIntOf moc, pyIntOf dyc, pyIntOf hc, pyIntOf mtc,
                pyIntOf sc1, 0⟩
        | [sc1, usc] =>
          some ⟨pyIntOf yc, pyIntOf moc, pyIntOf dyc, pyIntOf hc, pyIntOf mtc,
                pyIntOf sc1, pyIntOf usc⟩
        | _ => none
      | _ => none
    | _ => none
  | _ => none

/-- The 12-field row `save_to_db` inserts (lines 148-155), in column order
stid, start_iso, end_iso, cmd_name, cmd_args, cpid, min_nave,
times_consistent, not_corrupt, min_tfreq, max_tfreq, xcf. -/
structure DbRow where
  stid : Int
  start_iso : String
  end_iso : String
  cmd_name : String
  cmd_args : String
  cpid : Int
  min_nave : Int
  times_consistent : Int
  not_corrupt : Int
  min_tfreq : Int
  max_tfreq : Int
  xcf : Int
deriving DecidableEq, Repr

/-- `save_to_db` (lines 138-159) restricted to the row it writes: the two
datetimes go through `isoformat`; `int(...)` on `min_nave`,
`times_consistent` and `not_corrupt` is the identity on the 0/1 ints of the
model. -/
def save_to_db_row (r : Record) : DbRow :=
  { stid := r.stid, start_iso := isoformat r.start_dt
    end_iso := isoformat r.end_dt, cmd_name := r.cmd_name
    cmd_args := r.cmd_args, cpid := r.cpid, min_nave := r.min_nave
    times_consistent := r.times_consistent, not_corrupt := r.not_corrupt
    min_tfreq := r.min_tfreq, max_tfreq := r.max_tfreq, xcf := r.xcf }

/-- `RawacfRecord.record_from_tuple` (lines 162-187): parse the two ISO
strings with `iso_to_dt` (a parse failure is its ValueError) and pass every
other column through to the constructor unchanged. -/
def record_from_tuple (tup : DbRow) : Option Record :=
  match iso_to_dt tup.start_iso, iso_to_dt tup.end_iso with
  | some start_dt, some end_dt =>
    some { stid := tup.stid, start_dt := start_dt, end_dt := end_dt
           cmd_name := tup.cmd_name, cmd_args := tup.cmd_args
           cpid := tup.cpid, min_nave := tup.min_nave
           times_consistent := tup.times_consistent
           not_corrupt := tup.not_corrupt, min_tfreq := tup.min_tfreq
           max_tfreq := tup.max_tfreq, xcf := tup.xcf }
  | _, _ => none

/-- A representative consistent epoch: station 'sas' (stid 5, a 16-beam
radar), txpl 300 / rsep 45, timestamp 2017-06-26T12:00:00. -/
def epBase : Epoch :=
  { cp := 3, origin_command := "normalscan -fast", stid := 5, xcf := 1
    txpl := 300, rsep := 45, bmnum := 0, tfreq := 10500, nave := 5
    time_yr := 2017, time_mo := 6, time_dy := 26, time_hr := 12
    time_mt := 0, time_sc := 0, time_us := .intVal 0 }

/-- `epBase` with the inconsistent pair txpl 250 / rsep 50 from the spec. -/
def ep250 : Epoch := { epBase with txpl := 250, rsep := 50 }

/-- `epBase` with a different control program id, lower tfreq and nave,
10 seconds later. -/
def epCp7 : Epoch := { epBase with cp := 7, tfreq := 10400, nave := 3, time_sc := 10 }

/-- `epBase` with a higher tfreq, 10 seconds later. -/
def epT10f : Epoch := { epBase with tfreq := 10600, time_sc := 10 }

/-- `epBase` 10 seconds later. -/
def epT10 : Epoch := { epBase with time_sc := 10 }

/-- `epBase` 19.999 seconds later. -/
def epT19999 : Epoch := { epBase with time_sc := 19, time_us := .intVal 999000 }

/-- `epBase` 20.0 seconds later. -/
def epT20 : Epoch := { epBase with time_sc := 20 }

/-- `epBase` 30 seconds later. -/
def epT30 : Epoch := { epBase with time_sc := 30 }

/-- `epBase` 40 seconds later. -/
def epT40 : Epoch := { epBase with time_sc := 40 }

/-- `epBase` with day 32 (structurally invalid), 10 seconds later. -/
def epDay32 : Epoch := { epBase with time_dy := 32, time_sc := 10 }

/-- `epBase` with day 32 at the original time. -/
def epDay32First : Epoch := { epBase with time_dy := 32 }

/-- `epBase` with the spurious microsecond value -5. -/
def epUsNeg : Epoch := { epBase with time_us := .intVal (-5) }

/-- `epBase` with the spurious microsecond value 1000000. -/
def epUsBig : Epoch := { epBase with time_us := .intVal 1000000 }

/-- An epoch with both a spurious microsecond value and an invalid day. -/
def epBad32Us : Epoch := { epBase with time_dy := 32, time_us := .intVal (-5) }

/-- Two-epoch file whose second epoch changes the control program id. -/
def exC3 : List Epoch := [epBase, epCp7]

/-- Fully consistent two-epoch file with varying tfreq. -/
def exC4 : List Epoch := [epBase, epT10f]

/-- Three-epoch file whose middle epoch has an invalid day. -/
def exC5mid : List Epoch := [epBase, epDay32, epT20]

/-- Two-epoch file whose first epoch has an invalid day. -/
def exC5first : List Epoch := [epDay32First, epT10]

/-- Two epochs 19.999 seconds apart. -/
def exC6a : List Epoch := [epBase, epT19999]

/-- Two epochs 20.0 seconds apart. -/
def exC6b : List Epoch := [epBase, epT20]

/-- Two epochs in decreasing time order. -/
def exC8bad : List Epoch := [epT40, epBase]

/-- Two epochs in increasing time order. -/
def exC8good : List Epoch := [epBase, epT10]

/-- Two-epoch file whose first epoch carries the spurious microsecond -5. -/
def exC10bad : List Epoch := [epUsNeg, epT10]

/-- Two-epoch file with no spurious microsecond values. -/
def exC10clean : List Epoch := [epBase, epT30]

/-- The record built from `exC3`. -/
def recC3 : Record :=
  { stid := 5, start_dt := ⟨2017, 6, 26, 12, 0, 0, 0⟩
    end_dt := ⟨2017, 6, 26, 12, 0, 10, 0⟩, cmd_name := "normalscan"
    cmd_args := "-fast", cpid := -1, min_nave := 3, times_consistent := 1
    not_corrupt := 0, min_tfreq := 10400, max_tfreq := 10500, xcf := 1 }

/-- The record built from `exC4`. -/
def recC4 : Record :=
  { stid := 5, start_dt := ⟨2017, 6, 26, 12, 0, 0, 0⟩
    end_dt := ⟨2017, 6, 26, 12, 0, 10, 0⟩, cmd_name := "normalscan"
    cmd_args := "-fast", cpid := 3, min_nave := 5, times_consistent := 1
    not_corrupt := 1, min_tfreq := 10500, max_tfreq := 10600, xcf := 1 }

/-- The record built from `exC6a`. -/
def recC6a : Record :=
  { stid := 5, start_dt := ⟨2017, 6, 26, 12, 0, 0, 0⟩
    end_dt := ⟨2017, 6, 26, 12, 0, 19, 999000⟩, cmd_name := "normalscan"
    cmd_args := "-fast", cpid := 3, min_nave := 5, times_consistent := 1
    not_corrupt := 1, min_tfreq := 10500, max_tfreq := 10500, xcf := 1 }

/-- The record built from `exC6b`. -/
def recC6b : Record :=
  { stid := 5, start_dt := ⟨2017, 6, 26, 12, 0, 0, 0⟩
    end_dt := ⟨2017, 6, 26, 12, 0, 20, 0⟩, cmd_name := "normalscan"
    cmd_args := "-fast", cpid := 3, min_nave := 5, times_consistent := 0
    not_corrupt := 1, min_tfreq := 10500, max_tfreq := 10500, xcf := 1 }

/-- The record built from `exC8good`. -/
def recC8w : Record :=
  { stid := 5, start_dt := ⟨2017, 6, 26, 12, 0, 0, 0⟩
    end_dt := ⟨2017, 6, 26, 12, 0, 10, 0⟩, cmd_name := "normalscan"
    cmd_args := "-fast", cpid := 3, min_nave := 5, times_consistent := 1
    not_corrupt := 1, min_tfreq := 10500, max_tfreq := 10500, xcf := 1 }

/-- A record with a microsecond-precision start time, for the storage
round trip. -/
def recC9 : Record :=
  { stid := 5, start_dt := ⟨2017, 7, 18, 15, 0, 37, 245704⟩
    end_dt := ⟨2017, 7, 18, 15, 30, 0, 0⟩, cmd_name := "normalscan"
    cmd_args := "-fast", cpid := 3, min_nave := 3, times_consistent := 1
    not_corrupt := 1, min_tfreq := 10400, max_tfreq := 10600, xcf := 1 }

/-- The record built from `exC5mid`: the ValueError of the middle epoch is
caught, `ts` keeps only the first timestamp, the gap list is empty and the
record reports `times_consistent = 1`. -/
def recC5mid : Record :=
  { stid := 5, start_dt := ⟨2017, 6, 26, 12, 0, 0, 0⟩
    end_dt := ⟨2017, 6, 26, 12, 0, 20, 0⟩, cmd_name := "normalscan"
    cmd_args := "-fast", cpid := 3, min_nave := 5, times_consistent := 1
    not_corrupt := 1, min_tfreq := 10500, max_tfreq := 10500, xcf := 1 }

/-- How a dict object of the input list may have changed by the time
`record_from_dics` returns: either untouched, or with its 'time.us' entry
overwritten by the microsecond correction. -/
def MutRel (a b : Epoch) : Prop := b = a ∨ b = micro_correct a


theorem foldl_or_any (f : Epoch → Bool) (l : List Epoch) (b : Bool) :
    l.foldl (fun acc d => acc || f d) b = (b || l.any f) := by
  induction l generalizing b with
  | nil => simp
  | cons d l ih => simp [ih, Bool.or_assoc]

theorem check_foldl_cp (first : Epoch) (l : List Epoch) (o : Objections) :
    (l.foldl (check_step first) o).cp
      = l.foldl (fun b d => b || cpViol first d) o.cp := by
  induction l generalizing o with
  | nil => rfl
  | cons d l ih => rw [List.foldl_cons, List.foldl_cons, ih]; rfl

theorem check_foldl_cmd (first : Epoch) (l : List Epoch) (o : Objections) :
    (l.foldl (check_step first) o).origin_command
      = l.foldl (fun b d => b || cmdViol first d) o.origin_command := by
  induction l generalizing o with
  | nil => rfl
  | cons d l ih => rw [List.foldl_cons, List.foldl_cons, ih]; rfl

theorem check_foldl_stid (first : Epoch) (l : List Epoch) (o : Objections) :
    (l.foldl (check_step first) o).stid
      = l.foldl (fun b d => b || stidViol first d) o.stid := by
  induction l generalizing o with
  | nil => rfl
  | cons d l ih => rw [List.foldl_cons, List.foldl_cons, ih]; rfl

theorem check_foldl_xcf (first : Epoch) (l : List Epoch) (o : Objections) :
    (l.foldl (check_step first) o).xcf
      = l.foldl (fun b d => b || xcfViol first d) o.xcf := by
  induction l generalizing o with
  | nil => rfl
  | cons d l ih => rw [List.foldl_cons, List.foldl_cons, ih]; rfl

theorem check_foldl_rsep (first : Epoch) (l : List Epoch) (o : Objections) :
    (l.foldl (check_step first) o).rsep
      = l.foldl (fun b d => b || rsepViol d) o.rsep := by
  induction l generalizing o with
  | nil => rfl
  | cons d l ih => rw [List.foldl_cons, List.foldl_cons, ih]; rfl

theorem check_foldl_txpl (first : Epoch) (l : List Epoch) (o : Objections) :
    (l.foldl (check_step first) o).txpl
      = l.foldl (fun b d => b || rsepViol d) o.txpl := by
  induction l generalizing o with
  | nil => rfl
  | cons d l ih => rw [List.foldl_cons, List.foldl_cons, ih]; rfl

theorem check_foldl_bmnum (first : Epoch) (l : List Epoch) (o : Objections) :
    (l.foldl (check_step first) o).bmnum
      = l.foldl (fun b d => b || bmnumViol d) o.bmnum := by
  induction l generalizing o with
  | nil => rfl
  | cons d l ih => rw [List.foldl_cons, List.foldl_cons, ih]; rfl

theorem check_fields_cp_iff (first : Epoch) (tail : List Epoch) :
    (check_fields (first :: tail)).cp = true ↔ ∃ d ∈ first :: tail, d.cp ≠ first.cp := by
  rw [check_fields, check_foldl_cp, foldl_or_any]
  simp [Objections.empty, List.any_eq_true, cpViol]

theorem check_fields_cmd_iff (first : Epoch) (tail : List Epoch) :
    (check_fields (first :: tail)).origin_command = true
      ↔ ∃ d ∈ first :: tail, d.origin_command ≠ first.origin_command := by
  rw [check_fields, check_foldl_cmd, foldl_or_any]
  simp [Objections.empty, List.any_eq_true, cmdViol]

theorem check_fields_stid_iff (first : Epoch) (tail : List Epoch) :
    (check_fields (first :: tail)).stid = true
      ↔ ∃ d ∈ first :: tail, d.stid ≠ first.stid := by
  rw [check_fields, check_foldl_stid, foldl_or_any]
  simp [Objections.empty, List.any_eq_true, stidViol]

theorem check_fields_xcf_iff (first : Epoch) (tail : List Epoch) :
    (check_fields (first :: tail)).xcf = true
      ↔ ∃ d ∈ first :: tail, d.xcf ≠ first.xcf := by
  rw [check_fields, check_foldl_xcf, foldl_or_any]
  simp [Objections.empty, List.any_eq_true, xcfViol]

theorem check_fields_rsep_iff (first : Epoch) (tail : List Epoch) :
    (check_fields (first :: tail)).rsep = true
      ↔ ∃ d ∈ first :: tail, (d.txpl * 3).fdiv 20 ≠ d.rsep := by
  rw [check_fields, check_foldl_rsep, foldl_or_any]
  simp [Objections.empty, List.any_eq_true, rsepViol]

theorem check_fields_txpl_iff (first : Epoch) (tail : List Epoch) :
    (check_fields (first :: tail)).txpl = true
      ↔ ∃ d ∈ first :: tail, (d.txpl * 3).fdiv 20 ≠ d.rsep := by
  rw [check_fields, check_foldl_txpl, foldl_or_any]
  simp [Objections.empty, List.any_eq_true, rsepViol]

theorem check_fields_bmnum_iff (first : Epoch) (tail : List Epoch) :
    (check_fields (first :: tail)).bmnum = true
      ↔ ∃ d ∈ first :: tail, bmnumViol d = true := by
  rw [check_fields, check_foldl_bmnum, foldl_or_any]
  simp [Objections.empty, List.any_eq_true]

theorem objEmpty_iff (o : Objections) : objEmpty o = true ↔ o = Objections.empty := by
  obtain ⟨a, b, c, d, e, f, g⟩ := o
  simp only [objEmpty, Objections.empty, Objections.mk.injEq, Bool.and_eq_true,
    Bool.not_eq_true']
  tauto

/-- C1: for epoch sequences of length at least 2, `check_fields` puts both
the 'rsep' and 'txpl' keys in the objection dictionary exactly when some
epoch violates the floor-division relation `(txpl * 3) // 20 == rsep` (in
Python 2 the source's `txpl*3/20` is that floor division). -/
theorem claim_C1 (dicts : List Epoch) (hlen : 2 ≤ dicts.length) :
    ((check_fields dicts).rsep = true ∧ (check_fields dicts).txpl = true)
      ↔ ∃ d ∈ dicts, (d.txpl * 3).fdiv 20 ≠ d.rsep := by
  match dicts with
  | [] => simp at hlen
  | first :: tail =>
    rw [check_fields_rsep_iff, check_fields_txpl_iff, and_self]

/-- Witness for C1: the epoch pair with (txpl, rsep) = (250, 50) (which
violates (250*3)//20 = 37 ≠ 50) puts both keys in the objection set, while
(300, 45) (since (300*3)//20 = 45) leaves both out. -/
theorem claim_C1_witness :
    2 ≤ ([ep250, epBase] : List Epoch).length
    ∧ (check_fields [ep250, epBase]).rsep = true
    ∧ (check_fields [ep250, epBase]).txpl = true
    ∧ (check_fields [epBase, epBase]).rsep = false
    ∧ (check_fields [epBase, epBase]).txpl = false := by
  refine ⟨by decide, ?_, ?_, by decide, by decide⟩
  · exact ((claim_C1 [ep250, epBase] (by decide)).mpr ⟨ep250, by decide, by decide⟩).1
  · exact ((claim_C1 [ep250, epBase] (by decide)).mpr ⟨ep250, by decide, by decide⟩).2

/-- C2 counterexample: on the empty epoch sequence `record_from_dics` does
not fail with the degenerate-session kind `BadRawacfError`; the line 202
assert indexes `dmap_dicts[0]` first and raises an IndexError. -/
theorem claim_C2_counterexample :
    (record_from_dics ([] : List Epoch)).2 = Except.error RecErr.indexError
    ∧ RecErr.indexError ≠ RecErr.badRawacf := by
  exact ⟨rfl, by decide⟩

/-- C2 (amended): a sequence of length exactly 1 fails with `BadRawacfError`
while the empty sequence fails with an IndexError; in both cases no record
is returned. -/
theorem claim_C2 (dicts : List Epoch) (hlen : dicts.length < 2) :
    record_from_dics dicts
      = (dicts, Except.error
          (if dicts.length = 0 then RecErr.indexError else RecErr.badRawacf))
    ∧ ∀ (s : List Epoch) (r : Record), record_from_dics dicts ≠ (s, Except.ok r) := by
  match dicts with
  | [] => exact ⟨rfl, by intro s r hc; simp [record_from_dics] at hc⟩
  | [d] =>
    refine ⟨by simp [record_from_dics], ?_⟩
    intro s r hc
    simp [record_from_dics] at hc
  | a :: b :: t => simp at hlen; omega

/-- Witness for C2: a one-epoch file raises `BadRawacfError`. -/
theorem claim_C2_witness :
    record_from_dics [epBase]
      = ([epBase], Except.error
          (if ([epBase] : List Epoch).length = 0 then RecErr.indexError
           else RecErr.badRawacf)) :=
  (claim_C2 [epBase] (by decide)).1

set_option maxHeartbeats 1000000 in
theorem build_record_ok {first next : Epoch} {rest s : List Epoch} {r : Record}
    (h : build_record first next rest = (s, Except.ok r)) :
    r.cpid = (if (check_fields (first :: next :: rest)).cp then -1 else first.cp)
    ∧ r.stid = (if (check_fields (first :: next :: rest)).stid then -1 else first.stid)
    ∧ r.xcf = (if (check_fields (first :: next :: rest)).xcf then -1 else first.xcf)
    ∧ r.cmd_name
        = (split_cmd (if (check_fields (first :: next :: rest)).origin_command then ""
            else first.origin_command)).1
    ∧ r.cmd_args
        = (split_cmd (if (check_fields (first :: next :: rest)).origin_command then ""
            else first.origin_command)).2
    ∧ r.min_tfreq = pyMin ((first :: next :: rest).map (fun d => d.tfreq))
    ∧ r.max_tfreq = pyMax ((first :: next :: rest).map (fun d => d.tfreq))
    ∧ r.min_nave = pyMin ((first :: next :: rest).map (fun d => d.nave))
    ∧ r.not_corrupt = (if objEmpty (check_fields (first :: next :: rest)) then 1 else 0)
    ∧ dtOf first = Except.ok r.start_dt
    ∧ dtOf (pyLast next rest) = Except.ok r.end_dt
    ∧ r.times_consistent
        = (if (microDiffs ((tsLoop (stateAfterStartEnd first next rest)).2.1)).all
              (fun x => decide (x < 20000000)) then 1 else 0)
    ∧ s = (tsLoop (stateAfterStartEnd first next rest)).1 := by
  unfold build_record at h
  simp only [] at h
  split at h
  · simp only [Prod.mk.injEq] at h
    exact Except.noConfusion h.2
  · split at h
    · simp only [Prod.mk.injEq] at h
      exact Except.noConfusion h.2
    · rename_i x0 t0 h0 x1 t1 h1
      simp only [Prod.mk.injEq, Except.ok.injEq] at h
      obtain ⟨hs, hr⟩ := h
      subst hr
      subst hs
      exact ⟨rfl, rfl, rfl, rfl, rfl, rfl, rfl, rfl, rfl, h0, h1, rfl, rfl⟩

/-- C3: for each of the four checked fields of a built record, the record
carries the first epoch's value when the field is constant across the file,
and otherwise the field is an objection key and the record carries the
sentinel (-1, or the empty command split); min/max tfreq and min nave are
computed over all epochs either way. -/
theorem claim_C3 (first next : Epoch) (rest s : List Epoch) (r : Record)
    (h : record_from_dics (first :: next :: rest) = (s, Except.ok r)) :
    ((∀ d ∈ first :: next :: rest, d.cp = first.cp) → r.cpid = first.cp)
    ∧ ((∃ d ∈ first :: next :: rest, d.cp ≠ first.cp) →
        (check_fields (first :: next :: rest)).cp = true ∧ r.cpid = -1)
    ∧ ((∀ d ∈ first :: next :: rest, d.stid = first.stid) → r.stid = first.stid)
    ∧ ((∃ d ∈ first :: next :: rest, d.stid ≠ first.stid) →
        (check_fields (first :: next :: rest)).stid = true ∧ r.stid = -1)
    ∧ ((∀ d ∈ first :: next :: rest, d.xcf = first.xcf) → r.xcf = first.xcf)
    ∧ ((∃ d ∈ first :: next :: rest, d.xcf ≠ first.xcf) →
        (check_fields (first :: next :: rest)).xcf = true ∧ r.xcf = -1)
    ∧ ((∀ d ∈ first :: next :: rest, d.origin_command = first.origin_command) →
        r.cmd_name = (split_cmd first.origin_command).1
        ∧ r.cmd_args = (split_cmd first.origin_command).2)
    ∧ ((∃ d ∈ first :: next :: rest, d.origin_command ≠ first.origin_command) →
        (check_fields (first :: next :: rest)).origin_command = true
        ∧ r.cmd_name = "" ∧ r.cmd_args = "")
    ∧ r.min_tfreq = pyMin ((first :: next :: rest).map (fun d => d.tfreq))
    ∧ r.max_tfreq = pyMax ((first :: next :: rest).map (fun d => d.tfreq))
    ∧ r.min_nave = pyMin ((first :: next :: rest).map (fun d => d.nave)) := by
  have hb : build_record first next rest = (s, Except.ok r) := h
  obtain ⟨hcp, hstid, hxcf, hname, hargs, htf1, htf2, hnave, -, -, -, -, -⟩ :=
    build_record_ok hb
  refine ⟨?_, ?_, ?_, ?_, ?_, ?_, ?_, ?_, htf1, htf2, hnave⟩
  · intro hall
    have hc : ¬(check_fields (first :: next :: rest)).cp = true := by
      rw [check_fields_cp_iff]
      rintro ⟨d, hd, hne⟩
      exact hne (hall d hd)
    rw [hcp, if_neg hc]
  · intro hex
    have hc : (check_fields (first :: next :: rest)).cp = true :=
      (check_fields_cp_iff _ _).mpr hex
    exact ⟨hc, by rw [hcp, if_pos hc]⟩
  · intro hall
    have hc : ¬(check_fields (first :: next :: rest)).stid = true := by
      rw [check_fields_stid_iff]
      rintro ⟨d, hd, hne⟩
      exact hne (hall d hd)
    rw [hstid, if_neg hc]
  · intro hex
    have hc : (check_fields (first :: next :: rest)).stid = true :=
      (check_fields_stid_iff _ _).mpr hex
    exact ⟨hc, by rw [hstid, if_pos hc]⟩
  · intro hall
    have hc : ¬(check_fields (first :: next :: rest)).xcf = true := by
      rw [check_fields_xcf_iff]
      rintro ⟨d, hd, hne⟩
      exact hne (hall d hd)
    rw [hxcf, if_neg hc]
  · intro hex
    have hc : (check_fields (first :: next :: rest)).xcf = true :=
      (check_fields_xcf_iff _ _).mpr hex
    exact ⟨hc, by rw [hxcf, if_pos hc]⟩
  · intro hall
    have hc : ¬(check_fields (first :: next :: rest)).origin_command = true := by
      rw [check_fields_cmd_iff]
      rintro ⟨d, hd, hne⟩
      exact hne (hall d hd)
    exact ⟨by rw [hname, if_neg hc], by rw [hargs, if_neg hc]⟩
  · intro hex
    have hc : (check_fields (first :: next :: rest)).origin_command = true :=
      (check_fields_cmd_iff _ _).mpr hex
    refine ⟨hc, ?_, ?_⟩
    · rw [hname, if_pos hc]
      rfl
    · rw [hargs, if_pos hc]
      rfl

/-- Witness for C3: on a two-epoch file whose second epoch changes the
control program id, the record's cpid is the sentinel -1 and 'cp' is an
objection key, while min/max tfreq and min nave are still correct. -/
theorem claim_C3_witness :
    record_from_dics exC3 = (exC3, Except.ok recC3)
    ∧ ((check_fields exC3).cp = true ∧ recC3.cpid = -1)
    ∧ recC3.min_tfreq = pyMin (exC3.map (fun d => d.tfreq))
    ∧ recC3.max_tfreq = pyMax (exC3.map (fun d => d.tfreq))
    ∧ recC3.min_nave = pyMin (exC3.map (fun d => d.nave))
    ∧ recC3.stid = epBase.stid ∧ recC3.xcf = epBase.xcf := by
  have h : record_from_dics exC3 = (exC3, Except.ok recC3) := by decide
  have hmain := claim_C3 epBase epCp7 [] exC3 recC3 h
  exact ⟨h, hmain.2.1 ⟨epCp7, by decide, by decide⟩,
    hmain.2.2.2.2.2.2.2.2.1, hmain.2.2.2.2.2.2.2.2.2.1, hmain.2.2.2.2.2.2.2.2.2.2,
    hmain.2.2.1 (by decide), hmain.2.2.2.2.1 (by decide)⟩

/-- C4: a built record's `not_corrupt` flag (the spec's `is_valid`) is set
exactly when `check_fields` returned an empty objection dictionary; in
particular a file whose four checked fields are constant and whose
per-epoch rsep/txpl and beam-number invariants hold yields an empty
objection set and a valid record. -/
theorem claim_C4 (first next : Epoch) (rest s : List Epoch) (r : Record)
    (h : record_from_dics (first :: next :: rest) = (s, Except.ok r)) :
    (r.not_corrupt = 1 ↔ check_fields (first :: next :: rest) = Objections.empty)
    ∧ ((∀ d ∈ first :: next :: rest,
          d.cp = first.cp ∧ d.origin_command = first.origin_command
          ∧ d.stid = first.stid ∧ d.xcf = first.xcf
          ∧ (d.txpl * 3).fdiv 20 = d.rsep
          ∧ 0 ≤ d.bmnum
          ∧ d.bmnum < (if d.stid ∈ radars16_values then (16 : Int) else 24)) →
        r.not_corrupt = 1 ∧ check_fields (first :: next :: rest) = Objections.empty) := by
  have hb : build_record first next rest = (s, Except.ok r) := h
  obtain ⟨-, -, -, -, -, -, -, -, hnc, -, -, -, -⟩ := build_record_ok hb
  have hiff : r.not_corrupt = 1 ↔ check_fields (first :: next :: rest) = Objections.empty := by
    rw [hnc]
    by_cases he : objEmpty (check_fields (first :: next :: rest)) = true
    · rw [if_pos he]
      exact ⟨fun _ => (objEmpty_iff _).mp he, fun _ => rfl⟩
    · rw [if_neg he]
      constructor
      · intro h0
        exact absurd h0 (by decide)
      · intro hemp
        exact absurd ((objEmpty_iff _).mpr hemp) he
  refine ⟨hiff, fun hall => ?_⟩
  have hcpf : (check_fields (first :: next :: rest)).cp = false := by
    rw [Bool.eq_false_iff]
    rw [Ne, check_fields_cp_iff]
    rintro ⟨d, hd, hne⟩
    exact hne (hall d hd).1
  have hcmdf : (check_fields (first :: next :: rest)).origin_command = false := by
    rw [Bool.eq_false_iff, Ne, check_fields_cmd_iff]
    rintro ⟨d, hd, hne⟩
    exact hne (hall d hd).2.1
  have hstidf : (check_fields (first :: next :: rest)).stid = false := by
    rw [Bool.eq_false_iff, Ne, check_fields_stid_iff]
    rintro ⟨d, hd, hne⟩
    exact hne (hall d hd).2.2.1
  have hxcff : (check_fields (first :: next :: rest)).xcf = false := by
    rw [Bool.eq_false_iff, Ne, check_fields_xcf_iff]
    rintro ⟨d, hd, hne⟩
    exact hne (hall d hd).2.2.2.1
  have hrsepf : (check_fields (first :: next :: rest)).rsep = false := by
    rw [Bool.eq_false_iff, Ne, check_fields_rsep_iff]
    rintro ⟨d, hd, hne⟩
    exact hne (hall d hd).2.2.2.2.1
  have htxplf : (check_fields (first :: next :: rest)).txpl = false := by
    rw [Bool.eq_false_iff, Ne, check_fields_txpl_iff]
    rintro ⟨d, hd, hne⟩
    exact hne (hall d hd).2.2.2.2.1
  have hbmf : (check_fields (first :: next :: rest)).bmnum = false := by
    rw [Bool.eq_false_iff, Ne, check_fields_bmnum_iff]
    rintro ⟨d, hd, hviol⟩
    have hle := (hall d hd).2.2.2.2.2.1
    have hlt := (hall d hd).2.2.2.2.2.2
    simp [bmnumViol] at hviol
    omega
  have hemp : check_fields (first :: next :: rest) = Objections.empty := by
    apply (objEmpty_iff _).mp
    rw [objEmpty, hcpf, hcmdf, hstidf, hxcff, hrsepf, htxplf, hbmf]
    rfl
  exact ⟨hiff.mpr hemp, hemp⟩

/-- Witness for C4: a fully consistent two-epoch file has an empty
objection set and a record with `not_corrupt = 1`. -/
theorem claim_C4_witness :
    record_from_dics exC4 = (exC4, Except.ok recC4)
    ∧ recC4.not_corrupt = 1 ∧ check_fields exC4 = Objections.empty := by
  have h : record_from_dics exC4 = (exC4, Except.ok recC4) := by decide
  have hmain := claim_C4 epBase epT10f [] exC4 recC4 h
  have hres := hmain.2 (by decide)
  exact ⟨h, hres.1, hres.2⟩

/-- C8 counterexample: a two-epoch file in decreasing time order yields a
record (the gap is -40 seconds, below the 20-second threshold, and nothing
checks the ordering) whose start time is after its end time. -/
theorem claim_C8_counterexample :
    exceptIsOk (record_from_dics exC8bad).2 = true
    ∧ startLeEnd (record_from_dics exC8bad).2 = false := by
  exact ⟨by decide, by decide⟩

/-- C8 (amended): a built record satisfies `start_time <= end_time` whenever
the first epoch's reconstructed timestamp is no later than the last
epoch's — the builder takes start and end from the first and last epoch as
given and enforces no ordering itself. -/
theorem claim_C8 (first next : Epoch) (rest s : List Epoch) (r : Record)
    (h : record_from_dics (first :: next :: rest) = (s, Except.ok r))
    (hord : ∀ t0 t1 : DateTime, dtOf first = Except.ok t0 →
      dtOf (pyLast next rest) = Except.ok t1 → toMicros t0 ≤ toMicros t1) :
    toMicros r.start_dt ≤ toMicros r.end_dt := by
  have hb : build_record first next rest = (s, Except.ok r) := h
  obtain ⟨-, -, -, -, -, -, -, -, -, hst, hen, -, -⟩ := build_record_ok hb
  exact hord _ _ hst hen

theorem micro_correct_idem (e : Epoch) : micro_correct (micro_correct e) = micro_correct e := by
  unfold micro_correct
  by_cases hb : usBad e.time_us = true
  · rw [if_pos hb]
    simp [usBad]
  · rw [if_neg hb, if_neg hb]

theorem dtOf_micro_correct (e : Epoch) : dtOf (micro_correct e) = dtOf e := by
  unfold dtOf reconstruct_datetime
  rw [micro_correct_idem]

theorem mutRel_trans {a b c : Epoch} (h1 : MutRel a b) (h2 : MutRel b c) : MutRel a c := by
  rcases h1 with rfl | rfl
  · exact h2
  · rcases h2 with rfl | rfl
    · exact Or.inr rfl
    · exact Or.inr (micro_correct_idem a)

theorem forall₂_mutRel_refl (l : List Epoch) : List.Forall₂ MutRel l l := by
  induction l with
  | nil => exact .nil
  | cons e es ih => exact .cons (Or.inl rfl) ih

theorem forall₂_mutRel_trans {l m n : List Epoch} (h1 : List.Forall₂ MutRel l m)
    (h2 : List.Forall₂ MutRel m n) : List.Forall₂ MutRel l n := by
  induction h1 generalizing n with
  | nil => cases h2; exact .nil
  | cons hab ht ih =>
    cases h2 with
    | cons hbc h2t => exact .cons (mutRel_trans hab hbc) (ih h2t)

theorem tsLoop_cons_error {e : Epoch} {es : List Epoch} {u : Unit}
    (hd : dtOf e = Except.error u) :
    tsLoop (e :: es) = (micro_correct e :: es, [], false) := by
  show tsLoopCons e es (tsLoop es) = _
  unfold tsLoopCons
  rw [hd]

theorem tsLoop_cons_ok {e : Epoch} {es : List Epoch} {t : DateTime}
    (hd : dtOf e = Except.ok t) :
    tsLoop (e :: es)
      = (micro_correct e :: (tsLoop es).1, t :: (tsLoop es).2.1, (tsLoop es).2.2) := by
  show tsLoopCons e es (tsLoop es) = _
  unfold tsLoopCons
  rw [hd]

theorem tsLoop_rel (l : List Epoch) : List.Forall₂ MutRel l (tsLoop l).1 := by
  induction l with
  | nil => exact .nil
  | cons e es ih =>
    cases hd : dtOf e with
    | error u =>
      rw [tsLoop_cons_error hd]
      exact .cons (Or.inr rfl) (forall₂_mutRel_refl es)
    | ok t =>
      rw [tsLoop_cons_ok hd]
      exact .cons (Or.inr rfl) ih

theorem setLast_rel (l : List Epoch) : ∀ x : Epoch,
    List.Forall₂ MutRel l (setLast (micro_correct (pyLast x l)) l) := by
  induction l with
  | nil => intro x; exact .nil
  | cons e es ih =>
    intro x
    cases es with
    | nil => exact .cons (Or.inr rfl) .nil
    | cons f fs => exact .cons (Or.inl rfl) (ih e)

theorem stateAfterStartEnd_rel (first next : Epoch) (rest : List Epoch) :
    List.Forall₂ MutRel (first :: next :: rest) (stateAfterStartEnd first next rest) := by
  have h1 : List.Forall₂ MutRel (first :: next :: rest) (micro_correct first :: next :: rest) :=
    .cons (Or.inr rfl) (forall₂_mutRel_refl _)
  exact forall₂_mutRel_trans h1 (setLast_rel (micro_correct first :: next :: rest) first)

theorem record_from_dics_rel (dicts : List Epoch) :
    List.Forall₂ MutRel dicts (record_from_dics dicts).1 := by
  match dicts with
  | [] => exact .nil
  | [d] => exact forall₂_mutRel_refl _
  | first :: next :: rest =>
    show List.Forall₂ MutRel _ (build_record first next rest).1
    unfold build_record
    simp only []
    split
    · exact .cons (Or.inr rfl) (forall₂_mutRel_refl _)
    · split
      · exact stateAfterStartEnd_rel first next rest
      · exact forall₂_mutRel_trans (stateAfterStartEnd_rel first next rest) (tsLoop_rel _)

theorem eq_of_forall₂_nobad {l m : List Epoch} (h : List.Forall₂ MutRel l m)
    (hb : ∀ e ∈ l, usBad e.time_us = false) : m = l := by
  induction h with
  | nil => rfl
  | @cons a b l1 m1 hab ht ih =>
    have ha : usBad a.time_us = false := hb a (by simp)
    have hmc : micro_correct a = a := by
      simp [micro_correct, ha]
    have htl : m1 = l1 := ih (fun e he => hb e (List.mem_cons_of_mem _ he))
    rcases hab with rfl | rfl
    · rw [htl]
    · rw [hmc, htl]

theorem dtOkB_congr {a b : Epoch} (h : dtOf a = dtOf b) : dtOkB a = dtOkB b := by
  unfold dtOkB
  rw [h]

theorem mutRel_dtOf {a b : Epoch} (h : MutRel a b) : dtOf b = dtOf a := by
  rcases h with rfl | rfl
  · rfl
  · exact dtOf_micro_correct a

theorem forall₂_map_dtOf {l m : List Epoch} (h : List.Forall₂ MutRel l m) :
    m.map dtOf = l.map dtOf := by
  induction h with
  | nil => rfl
  | cons hab ht ih => simp [List.map_cons, ih, mutRel_dtOf hab]

theorem tsOf_eq_of_rel {l m : List Epoch} (h : List.Forall₂ MutRel l m) : tsOf m = tsOf l := by
  unfold tsOf
  rw [forall₂_map_dtOf h]

theorem allOk_of_rel {l m : List Epoch} (h : List.Forall₂ MutRel l m)
    (hok : ∀ e ∈ l, dtOkB e = true) : ∀ e ∈ m, dtOkB e = true := by
  induction h with
  | nil => intro e he; simp at he
  | @cons a b l1 m1 hab ht ih =>
    intro e he
    rcases List.mem_cons.mp he with rfl | he2
    · rw [dtOkB_congr (mutRel_dtOf hab)]
      exact hok a (by simp)
    · exact ih (fun x hx => hok x (List.mem_cons_of_mem _ hx)) e he2

theorem tsLoop_complete (l : List Epoch) (hok : ∀ e ∈ l, dtOkB e = true) :
    (tsLoop l).2.1 = tsOf l := by
  induction l with
  | nil => rfl
  | cons e es ih =>
    have he : dtOkB e = true := hok e (by simp)
    cases hd : dtOf e with
    | error u =>
      unfold dtOkB at he
      rw [hd] at he
      exact absurd he (by simp)
    | ok t =>
      have hcons : tsOf (e :: es) = t :: tsOf es := by
        unfold tsOf
        rw [List.map_cons, List.filterMap_cons, hd]
        rfl
      rw [tsLoop_cons_ok hd, hcons]
      show t :: (tsLoop es).2.1 = t :: tsOf es
      rw [ih (fun x hx => hok x (List.mem_cons_of_mem _ hx))]

/-- Witness for C8: an increasing two-epoch file yields a record with
start before end. -/
theorem claim_C8_witness :
    record_from_dics exC8good = (exC8good, Except.ok recC8w)
    ∧ toMicros recC8w.start_dt ≤ toMicros recC8w.end_dt := by
  have h : record_from_dics exC8good = (exC8good, Except.ok recC8w) := by decide
  refine ⟨h, claim_C8 epBase epT10 [] exC8good recC8w h ?_⟩
  intro t0 t1 h0 h1
  have e0 : t0 = (⟨2017, 6, 26, 12, 0, 0, 0⟩ : DateTime) := by
    have : dtOf epBase = Except.ok (⟨2017, 6, 26, 12, 0, 0, 0⟩ : DateTime) := by decide
    rw [this] at h0
    exact (Except.ok.injEq _ _).mp h0.symm
  have e1 : t1 = (⟨2017, 6, 26, 12, 0, 10, 0⟩ : DateTime) := by
    have : dtOf (pyLast epT10 []) = Except.ok (⟨2017, 6, 26, 12, 0, 10, 0⟩ : DateTime) := by
      decide
    rw [this] at h1
    exact (Except.ok.injEq _ _).mp h1.symm
  rw [e0, e1]
  decide

/-- C5: the code does not abort on a structurally invalid date/time
component.  With day 32 in a middle epoch the ValueError is caught at
line 242 and a record is still returned (built from the truncated
timestamp list); with day 32 in the first epoch the caught ValueError
leaves the local `ts` unassigned and line 246 raises a NameError, not a
distinct malformed-timestamp error kind. -/
theorem claim_C5 :
    record_from_dics exC5mid = (exC5mid, Except.ok recC5mid)
    ∧ (record_from_dics exC5first).2 = Except.error RecErr.nameError :=
  ⟨by decide, by decide⟩

/-- C6: when every epoch's timestamp is constructible, the built record's
`times_consistent` flag is 1 exactly when every consecutive timestamp gap,
taken in the given order, is strictly below 20 seconds (20000000
microseconds; the float comparison of line 248 against the threshold 20 is
exact at this granularity). -/
theorem claim_C6 (first next : Epoch) (rest s : List Epoch) (r : Record)
    (h : record_from_dics (first :: next :: rest) = (s, Except.ok r))
    (hok : ∀ d ∈ first :: next :: rest, dtOkB d = true) :
    (r.times_consistent = 1
      ↔ ∀ x ∈ microDiffs (tsOf (first :: next :: rest)), x < 20000000) := by
  have hb : build_record first next rest = (s, Except.ok r) := h
  obtain ⟨-, -, -, -, -, -, -, -, -, -, -, htc, -⟩ := build_record_ok hb
  have hrel := stateAfterStartEnd_rel first next rest
  have hok2 := allOk_of_rel hrel hok
  have hts : (tsLoop (stateAfterStartEnd first next rest)).2.1
      = tsOf (first :: next :: rest) := by
    rw [tsLoop_complete _ hok2, tsOf_eq_of_rel hrel]
  rw [hts] at htc
  rw [htc]
  by_cases hall : (microDiffs (tsOf (first :: next :: rest))).all
      (fun x => decide (x < 20000000)) = true
  · rw [if_pos hall]
    simp only [List.all_eq_true, decide_eq_true_eq] at hall
    exact ⟨fun _ => hall, fun _ => rfl⟩
  · rw [if_neg hall]
    constructor
    · intro h0
      exact absurd h0 (by decide)
    · intro hp
      exfalso
      apply hall
      simp only [List.all_eq_true, decide_eq_true_eq]
      exact hp

/-- Witness for C6: gaps of exactly 19.999 seconds give
`times_consistent = 1`; a gap of exactly 20.0 seconds gives 0 (the
boundary is exclusive). -/
theorem claim_C6_witness :
    record_from_dics exC6a = (exC6a, Except.ok recC6a)
    ∧ (recC6a.times_consistent = 1 ↔ ∀ x ∈ microDiffs (tsOf exC6a), x < 20000000)
    ∧ recC6a.times_consistent = 1
    ∧ record_from_dics exC6b = (exC6b, Except.ok recC6b)
    ∧ recC6b.times_consistent = 0 := by
  have h1 : record_from_dics exC6a = (exC6a, Except.ok recC6a) := by decide
  exact ⟨h1, claim_C6 epBase epT19999 [] exC6a recC6a h1 (by decide), by decide,
    by decide, by decide⟩

/-- C7 counterexample: an epoch with microsecond -5 and day 32 has a
spurious microsecond field, yet `reconstruct_datetime` raises a ValueError
instead of returning a corrected timestamp, refuting the claim's unqualified
universal statement. -/
theorem claim_C7_counterexample :
    usBad epBad32Us.time_us = true
    ∧ (reconstruct_datetime epBad32Us).2 = Except.error () :=
  ⟨by decide, by decide⟩

/-- C7 (amended): for every epoch whose microsecond field is negative,
above 999999 or not an int, and whose remaining date/time fields form a
valid datetime, `reconstruct_datetime` returns the timestamp with the
microsecond component forced to 1 and raises no exception. -/
theorem claim_C7 (e : Epoch) (hbad : usBad e.time_us = true)
    (hvalid : dtValidB e.time_yr e.time_mo e.time_dy e.time_hr e.time_mt e.time_sc 1
      = true) :
    (reconstruct_datetime e).2
      = Except.ok ⟨e.time_yr, e.time_mo, e.time_dy, e.time_hr, e.time_mt, e.time_sc, 1⟩ := by
  have hmc : micro_correct e = { e with time_us := .intVal 1 } := by
    unfold micro_correct
    rw [if_pos hbad]
  show (reconstruct_datetime e).2 = _
  unfold reconstruct_datetime
  simp only [hmc]
  show mk_datetime e.time_yr e.time_mo e.time_dy e.time_hr e.time_mt e.time_sc 1 = _
  unfold mk_datetime
  rw [if_pos hvalid]

/-- Witness for C7: microsecond values -5 and 1000000 both yield the epoch
timestamp with microsecond component 1. -/
theorem claim_C7_witness :
    usBad epUsNeg.time_us = true
    ∧ (reconstruct_datetime epUsNeg).2 = Except.ok ⟨2017, 6, 26, 12, 0, 0, 1⟩
    ∧ usBad epUsBig.time_us = true
    ∧ (reconstruct_datetime epUsBig).2 = Except.ok ⟨2017, 6, 26, 12, 0, 0, 1⟩ := by
  refine ⟨by decide, ?_, by decide, ?_⟩
  · exact claim_C7 epUsNeg (by decide) (by decide)
  · exact claim_C7 epUsBig (by decide) (by decide)

/-- C10 counterexample: building a record from a file whose first epoch has
microsecond -5 changes the input list — the 'time.us' entry is overwritten
with 1 — so `record_from_dics` is not free of side effects on its input. -/
theorem claim_C10_counterexample : (record_from_dics exC10bad).1 ≠ exC10bad := by decide

/-- C10 (amended): the only side effect of `record_from_dics` on its input
is the documented microsecond correction — every dict of the list is left
either unchanged or with its 'time.us' entry overwritten by 1 — and a file
none of whose epochs has a spurious microsecond field is left entirely
unchanged. -/
theorem claim_C10 (dicts : List Epoch) :
    List.Forall₂ MutRel dicts (record_from_dics dicts).1
    ∧ ((∀ e ∈ dicts, usBad e.time_us = false) → (record_from_dics dicts).1 = dicts) :=
  ⟨record_from_dics_rel dicts,
   fun hb => eq_of_forall₂_nobad (record_from_dics_rel dicts) hb⟩

/-- Witness for C10: a clean two-epoch file is returned unchanged. -/
theorem claim_C10_witness :
    (∀ e ∈ exC10clean, usBad e.time_us = false)
    ∧ (record_from_dics exC10clean).1 = exC10clean :=
  ⟨by decide, (claim_C10 exC10clean).2 (by decide)⟩

theorem digitChar_toNat {d : Nat} (h : d < 10) : (Nat.digitChar d).toNat = 48 + d := by
  interval_cases d <;> decide

theorem padDigits_all_digit {k n : Nat} (h : n < 10 ^ k) :
    ∀ c ∈ padDigits k n, 48 ≤ c.toNat ∧ c.toNat ≤ 57 := by
  induction k generalizing n with
  | zero => intro c hc; simp [padDigits] at hc
  | succ k ih =>
    intro c hc
    rw [padDigits] at hc
    have hd : n / 10 ^ k < 10 := by
      apply Nat.div_lt_of_lt_mul
      calc n < 10 ^ (k + 1) := h
        _ = 10 ^ k * 10 := by ring
    rcases List.mem_cons.mp hc with rfl | hc2
    · rw [digitChar_toNat hd]
      refine ⟨Nat.le_add_right _ _, ?_⟩
      have h9 : n / 10 ^ k ≤ 9 := Nat.lt_succ_iff.mp hd
      exact le_trans (Nat.add_le_add_left h9 48) (by norm_num)
    · exact ih (Nat.mod_lt _ (Nat.pos_pow_of_pos k (by norm_num))) c hc2

theorem parse_padDigits {k n : Nat} (a : Nat) (h : n < 10 ^ k) :
    (padDigits k n).foldl parseStep a = a * 10 ^ k + n := by
  induction k generalizing n a with
  | zero =>
    have hn : n = 0 := by omega
    subst hn
    simp [padDigits]
  | succ k ih =>
    rw [padDigits, List.foldl_cons]
    have hd : n / 10 ^ k < 10 := by
      apply Nat.div_lt_of_lt_mul
      calc n < 10 ^ (k + 1) := h
        _ = 10 ^ k * 10 := by ring
    have hstep : parseStep a (Nat.digitChar (n / 10 ^ k)) = a * 10 + n / 10 ^ k := by
      unfold parseStep
      rw [digitChar_toNat hd, Nat.add_sub_cancel_left]
    rw [hstep, ih _ (Nat.mod_lt _ (Nat.pos_pow_of_pos k (by norm_num)))]
    have hdm := Nat.div_add_mod n (10 ^ k)
    calc (a * 10 + n / 10 ^ k) * 10 ^ k + n % 10 ^ k
        = a * (10 ^ k * 10) + (10 ^ k * (n / 10 ^ k) + n % 10 ^ k) := by ring
      _ = a * 10 ^ (k + 1) + n := by rw [hdm]; ring

theorem parseNat_padDigits {k n : Nat} (h : n < 10 ^ k) :
    parseNatChars (padDigits k n) = n := by
  unfold parseNatChars
  rw [parse_padDigits 0 h]
  simp

theorem pyIntOf_padDigits {k : Nat} {n : Int} (h0 : 0 ≤ n) (h : n.toNat < 10 ^ k) :
    pyIntOf (padDigits k n.toNat) = n := by
  unfold pyIntOf
  rw [parseNat_padDigits h]
  omega

theorem splitCh_of_not_mem {c : Char} {l : List Char} (h : c ∉ l) : splitCh c l = [l] := by
  induction l with
  | nil => rfl
  | cons a as ih =>
    have ha : ¬a = c := fun hh => h (hh ▸ List.mem_cons_self a as)
    rw [splitCh, if_neg ha, ih (fun hm => h (List.mem_cons_of_mem _ hm))]
    rfl

theorem splitCh_append {c : Char} (l₁ l₂ : List Char) (h : c ∉ l₁) :
    splitCh c (l₁ ++ c :: l₂) = l₁ :: splitCh c l₂ := by
  induction l₁ with
  | nil =>
    show splitCh c (c :: l₂) = [] :: splitCh c l₂
    rw [splitCh, if_pos rfl]
  | cons a as ih =>
    have ha : ¬a = c := fun hh => h (hh ▸ List.mem_cons_self a as)
    show splitCh c (a :: (as ++ c :: l₂)) = (a :: as) :: splitCh c l₂
    rw [splitCh, if_neg ha, ih (fun hm => h (List.mem_cons_of_mem _ hm))]
    rfl

theorem sep_not_mem_digits {c : Char} {l : List Char}
    (hl : ∀ x ∈ l, 48 ≤ x.toNat ∧ x.toNat ≤ 57)
    (hc : ¬(48 ≤ c.toNat ∧ c.toNat ≤ 57)) : c ∉ l :=
  fun hm => hc (hl c hm)

theorem not_mem_append_cons {c b : Char} {l1 l2 : List Char}
    (h1 : c ∉ l1) (hb : c ≠ b) (h2 : c ∉ l2) : c ∉ l1 ++ b :: l2 := by
  intro hm
  rcases List.mem_append.mp hm with hA | hBC
  · exact h1 hA
  · rcases List.mem_cons.mp hBC with rfl | hC
    · exact hb rfl
    · exact h2 hC

theorem daysInMonth_le_31 (y mo : Int) : daysInMonth y mo ≤ 31 := by
  unfold daysInMonth
  split
  · split <;> norm_num
  · split <;> norm_num

theorem iso_roundtrip (t : DateTime) (h : dtValid t = true) :
    iso_to_dt (isoformat t) = some t := by
  obtain ⟨y, mo, dy, hr, mt, sc, us⟩ := t
  simp only [dtValid, dtValidB, Bool.and_eq_true, decide_eq_true_eq] at h
  have p2 : (10 : Nat) ^ 2 = 100 := by norm_num
  have p4 : (10 : Nat) ^ 4 = 10000 := by norm_num
  have p6 : (10 : Nat) ^ 6 = 1000000 := by norm_num
  have hdim := daysInMonth_le_31 y mo
  have hylt : y.toNat < 10 ^ 4 := by omega
  have hmolt : mo.toNat < 10 ^ 2 := by omega
  have hdylt : dy.toNat < 10 ^ 2 := by omega
  have hhrlt : hr.toNat < 10 ^ 2 := by omega
  have hmtlt : mt.toNat < 10 ^ 2 := by omega
  have hsclt : sc.toNat < 10 ^ 2 := by omega
  have huslt : us.toNat < 10 ^ 6 := by omega
  have hy0 : (0 : Int) ≤ y := by omega
  have hmo0 : (0 : Int) ≤ mo := by omega
  have hdy0 : (0 : Int) ≤ dy := by omega
  have hhr0 : (0 : Int) ≤ hr := by omega
  have hmt0 : (0 : Int) ≤ mt := by omega
  have hsc0 : (0 : Int) ≤ sc := by omega
  have hus0n : (0 : Int) ≤ us := by omega
  have hyd := padDigits_all_digit hylt
  have hmod := padDigits_all_digit hmolt
  have hdyd := padDigits_all_digit hdylt
  have hhrd := padDigits_all_digit hhrlt
  have hmtd := padDigits_all_digit hmtlt
  have hscd := padDigits_all_digit hsclt
  have husd := padDigits_all_digit huslt
  have hTdate : 'T' ∉ padDigits 4 y.toNat
      ++ '-' :: (padDigits 2 mo.toNat ++ '-' :: padDigits 2 dy.toNat) :=
    not_mem_append_cons (sep_not_mem_digits hyd (by decide)) (by decide)
      (not_mem_append_cons (sep_not_mem_digits hmod (by decide)) (by decide)
        (sep_not_mem_digits hdyd (by decide)))
  have hDdate : splitCh '-' (padDigits 4 y.toNat
        ++ '-' :: (padDigits 2 mo.toNat ++ '-' :: padDigits 2 dy.toNat))
      = [padDigits 4 y.toNat, padDigits 2 mo.toNat, padDigits 2 dy.toNat] := by
    rw [splitCh_append _ _ (sep_not_mem_digits hyd (by decide)),
      splitCh_append _ _ (sep_not_mem_digits hmod (by decide)),
      splitCh_of_not_mem (sep_not_mem_digits hdyd (by decide))]
  by_cases hus0 : us = 0
  · subst hus0
    have hTtime : 'T' ∉ padDigits 2 hr.toNat
        ++ ':' :: (padDigits 2 mt.toNat ++ ':' :: padDigits 2 sc.toNat) :=
      not_mem_append_cons (sep_not_mem_digits hhrd (by decide)) (by decide)
        (not_mem_append_cons (sep_not_mem_digits hmtd (by decide)) (by decide)
          (sep_not_mem_digits hscd (by decide)))
    have hCtime : splitCh ':' (padDigits 2 hr.toNat
          ++ ':' :: (padDigits 2 mt.toNat ++ ':' :: padDigits 2 sc.toNat))
        = [padDigits 2 hr.toNat, padDigits 2 mt.toNat, padDigits 2 sc.toNat] := by
      rw [splitCh_append _ _ (sep_not_mem_digits hhrd (by decide)),
        splitCh_append _ _ (sep_not_mem_digits hmtd (by decide)),
        splitCh_of_not_mem (sep_not_mem_digits hscd (by decide))]
    have hPsec : splitCh '.' (padDigits 2 sc.toNat) = [padDigits 2 sc.toNat] :=
      splitCh_of_not_mem (sep_not_mem_digits hscd (by decide))
    have hshape : isoChars ⟨y, mo, dy, hr, mt, sc, 0⟩
        = (padDigits 4 y.toNat ++ '-' :: (padDigits 2 mo.toNat ++ '-' :: padDigits 2 dy.toNat))
          ++ 'T' :: (padDigits 2 hr.toNat
            ++ ':' :: (padDigits 2 mt.toNat ++ ':' :: padDigits 2 sc.toNat)) := by
      simp [isoChars, List.append_assoc]
    unfold iso_to_dt isoformat
    rw [show (String.mk (isoChars ⟨y, mo, dy, hr, mt, sc, 0⟩)).data
        = isoChars ⟨y, mo, dy, hr, mt, sc, 0⟩ from rfl, hshape,
      splitCh_append _ _ hTdate, splitCh_of_not_mem hTtime]
    simp only [hDdate, hCtime, hPsec]
    rw [pyIntOf_padDigits hy0 hylt, pyIntOf_padDigits hmo0 hmolt,
      pyIntOf_padDigits hdy0 hdylt, pyIntOf_padDigits hhr0 hhrlt,
      pyIntOf_padDigits hmt0 hmtlt, pyIntOf_padDigits hsc0 hsclt]
  · have hTtime : 'T' ∉ padDigits 2 hr.toNat
        ++ ':' :: (padDigits 2 mt.toNat
          ++ ':' :: (padDigits 2 sc.toNat ++ '.' :: padDigits 6 us.toNat)) :=
      not_mem_append_cons (sep_not_mem_digits hhrd (by decide)) (by decide)
        (not_mem_append_cons (sep_not_mem_digits hmtd (by decide)) (by decide)
          (not_mem_append_cons (sep_not_mem_digits hscd (by decide)) (by decide)
            (sep_not_mem_digits husd (by decide))))
    have hCtime : splitCh ':' (padDigits 2 hr.toNat
          ++ ':' :: (padDigits 2 mt.toNat
            ++ ':' :: (padDigits 2 sc.toNat ++ '.' :: padDigits 6 us.toNat)))
        = [padDigits 2 hr.toNat, padDigits 2 mt.toNat,
           padDigits 2 sc.toNat ++ '.' :: padDigits 6 us.toNat] := by
      rw [splitCh_append _ _ (sep_not_mem_digits hhrd (by decide)),
        splitCh_append _ _ (sep_not_mem_digits hmtd (by decide)),
        splitCh_of_not_mem
          (not_mem_append_cons (sep_not_mem_digits hscd (by decide)) (by decide)
            (sep_not_mem_digits husd (by decide)))]
    have hPsec : splitCh '.' (padDigits 2 sc.toNat ++ '.' :: padDigits 6 us.toNat)
        = [padDigits 2 sc.toNat, padDigits 6 us.toNat] := by
      rw [splitCh_append _ _ (sep_not_mem_digits hscd (by decide)),
        splitCh_of_not_mem (sep_not_mem_digits husd (by decide))]
    have hshape : isoChars ⟨y, mo, dy, hr, mt, sc, us⟩
        = (padDigits 4 y.toNat ++ '-' :: (padDigits 2 mo.toNat ++ '-' :: padDigits 2 dy.toNat))
          ++ 'T' :: (padDigits 2 hr.toNat
            ++ ':' :: (padDigits 2 mt.toNat
              ++ ':' :: (padDigits 2 sc.toNat ++ '.' :: padDigits 6 us.toNat))) := by
      simp [isoChars, List.append_assoc, hus0]
    unfold iso_to_dt isoformat
    rw [show (String.mk (isoChars ⟨y, mo, dy, hr, mt, sc, us⟩)).data
        = isoChars ⟨y, mo, dy, hr, mt, sc, us⟩ from rfl, hshape,
      splitCh_append _ _ hTdate, splitCh_of_not_mem hTtime]
    simp only [hDdate, hCtime, hPsec]
    rw [pyIntOf_padDigits hy0 hylt, pyIntOf_padDigits hmo0 hmolt,
      pyIntOf_padDigits hdy0 hdylt, pyIntOf_padDigits hhr0 hhrlt,
      pyIntOf_padDigits hmt0 hmtlt, pyIntOf_padDigits hsc0 hsclt,
      pyIntOf_padDigits hus0n huslt]

/-- C9: the storage round trip is lossless — `record_from_tuple` applied to
the 12-field row written by `save_to_db` returns a record equal to the
original on every field.  (The ISO serialization keeps full microsecond
precision, and the 0/1 int serialization of the two boolean-valued fields
is the identity under Python's `bool`/`int` identification, so nothing is
lost.)  The hypotheses say the record's datetimes are values the `datetime`
constructor accepts, which holds of every `datetime` object. -/
theorem claim_C9 (r : Record) (h1 : dtValid r.start_dt = true)
    (h2 : dtValid r.end_dt = true) :
    record_from_tuple (save_to_db_row r) = some r := by
  have h1r := iso_roundtrip r.start_dt h1
  have h2r := iso_roundtrip r.end_dt h2
  unfold record_from_tuple save_to_db_row
  simp only [h1r, h2r]

/-- Witness for C9: the round trip at a record with a
microsecond-precision start time and a whole-second end time. -/
theorem claim_C9_witness :
    dtValid recC9.start_dt = true ∧ dtValid recC9.end_dt = true
    ∧ record_from_tuple (save_to_db_row recC9) = some recC9 :=
  ⟨by decide, by decide, claim_C9 recC9 (by decide) (by decide)⟩
